import Mathlib

/-!
Verification development for the InfoSlicer structural document model
(`infoslicer/processing/article.py`).

The `Article` class keeps a four-level hierarchy Article → Section →
Paragraph → Sentence whose nodes are bound to ranges of a Gtk.TextBuffer.
We embed the buffer as a `List Char` and every buffer position / mark as a
`Nat` offset.  The companion classes `Section`, `Paragraph`, `Sentence` and
the `*Data` snapshot classes (`article_data.py`) are not part of the source
tree we were given; their behaviour is modelled from the specification and
each such definition carries a doc comment starting with
`Modelled from the spec:`.

Mark gravity convention (Gtk.TextBuffer.create_mark left_gravity):
start offsets of nodes behave as left-gravity marks (text inserted exactly
at the mark stays to its right, the mark does not move), end offsets behave
as right-gravity marks (they move right when text is inserted at them), so
that insertion at a node boundary extends the node on the left of the gap.
-/

/-- Modelled from the spec: snapshot leaf `SentenceData` of `article_data.py`
(§6: `SentenceData{ id, source_ids, order_id, text|payload }`; the source
calls it positionally as `SentenceData(id, source_article_id,
source_section_id, source_paragraph_id, source_sentence_id, text, picture)`).
The picture payload is not modelled (no claim concerns pictures beyond their
run-element tag). -/
structure SentenceData where
  idz : Int := -1
  source_article_id : Int := -1
  source_section_id : Int := -1
  source_paragraph_id : Int := -1
  source_sentence_id : Int := -1
  text : String := ""
deriving Repr, DecidableEq, Inhabited

/-- Modelled from the spec: snapshot `ParagraphData` of `article_data.py`
(called as `ParagraphData(idz, source_article_id, source_section_id,
source_paragraph_id, sentences_data)`). -/
structure ParagraphData where
  idz : Int := -1
  source_article_id : Int := -1
  source_section_id : Int := -1
  source_paragraph_id : Int := -1
  sentences_data : List SentenceData := []
deriving Repr, DecidableEq, Inhabited

/-- Modelled from the spec: snapshot `SectionData` of `article_data.py`
(called as `SectionData(idz, source_article_id, source_section_id,
paragraphs_data)`; a `None` id is modelled as `-1`). -/
structure SectionData where
  idz : Int := -1
  source_article_id : Int := -1
  source_section_id : Int := -1
  paragraphs_data : List ParagraphData := []
deriving Repr, DecidableEq, Inhabited

/-- Modelled from the spec: snapshot root `ArticleData` of `article_data.py`
(§6: `ArticleData{ id, source_article_id, title, theme, sections,
image_list }`). -/
structure ArticleData where
  idz : Int := -1
  source_article_id : Int := -1
  article_title : String := ""
  article_theme : String := ""
  sections_data : List SectionData := []
  image_list : List String := []
deriving Repr, DecidableEq, Inhabited

/-- Modelled from the spec: runtime `Sentence` node (`sentence.py`, missing
from src/): the snapshot ids plus a buffer range held as a pair of marks;
its text is the buffer slice `[startOff, endOff)`. -/
structure Sentence where
  idz : Int := -1
  source_article_id : Int := -1
  source_section_id : Int := -1
  source_paragraph_id : Int := -1
  source_sentence_id : Int := -1
  startOff : Nat := 0
  endOff : Nat := 0
deriving Repr, DecidableEq, Inhabited

/-- Modelled from the spec: runtime `Paragraph` node (`paragraph.py`, missing
from src/): an ordered list of Sentences plus the paragraph's own range
marks (§3: a node's range is the convex hull of its children's ranges). -/
structure Paragraph where
  idz : Int := -1
  source_article_id : Int := -1
  source_section_id : Int := -1
  source_paragraph_id : Int := -1
  sentences : List Sentence := []
  startOff : Nat := 0
  endOff : Nat := 0
deriving Repr, DecidableEq, Inhabited

/-- Modelled from the spec: runtime `Section` node (`section.py`, missing
from src/): an ordered list of Paragraphs plus range marks; `dummy` is true
exactly for the two synthetic sentinel Sections of §3 invariant 5. -/
structure Section where
  idz : Int := -1
  source_article_id : Int := -1
  source_section_id : Int := -1
  paragraphs : List Paragraph := []
  startOff : Nat := 0
  endOff : Nat := 0
  dummy : Bool := false
deriving Repr, DecidableEq, Inhabited

/-- The state of one `Article` instance: the attributes set in
`Article.__init__` plus the text buffer (`self.__buf`, an ordered character
sequence) and the section list (`self.__sections`). -/
structure ArticleState where
  idz : Int := -1
  source_article_id : Int := -1
  article_title : String := ""
  article_theme : String := ""
  image_list : List String := []
  buf : List Char := []
  sections : List Section := []
deriving Repr, DecidableEq, Inhabited

/-- `Gtk.TextBuffer.get_slice(a, b)`: the characters in `[a, b)`. -/
def sliceBuf (buf : List Char) (a b : Nat) : List Char :=
  (buf.take b).drop a

/-- Insert `txt` into the buffer at offset `o`. -/
def insertAt (buf : List Char) (o : Nat) (txt : List Char) : List Char :=
  buf.take o ++ txt ++ buf.drop o

/-- Delete the buffer range `[a, b)`. -/
def deleteAt (buf : List Char) (a b : Nat) : List Char :=
  buf.take a ++ buf.drop b

/-- Adjustment of a left-gravity mark under insertion of `n` chars at `o`. -/
def shiftL (o n x : Nat) : Nat := if x ≤ o then x else x + n

/-- Adjustment of a right-gravity mark under insertion of `n` chars at `o`. -/
def shiftR (o n x : Nat) : Nat := if x < o then x else x + n

/-- Adjustment of a mark under deletion of the range `[a, b)`: marks inside
the deleted range collapse to `a`, later marks move left. -/
def shiftDel (a b x : Nat) : Nat :=
  if x ≤ a then x else if b ≤ x then x - (b - a) else a

def Sentence.shiftIns (o n : Nat) (s : Sentence) : Sentence :=
  { s with startOff := shiftL o n s.startOff, endOff := shiftR o n s.endOff }

def Paragraph.shiftIns (o n : Nat) (p : Paragraph) : Paragraph :=
  { p with startOff := shiftL o n p.startOff, endOff := shiftR o n p.endOff,
           sentences := p.sentences.map (Sentence.shiftIns o n) }

def Section.shiftIns (o n : Nat) (s : Section) : Section :=
  { s with startOff := shiftL o n s.startOff, endOff := shiftR o n s.endOff,
           paragraphs := s.paragraphs.map (Paragraph.shiftIns o n) }

def Sentence.shiftDelete (a b : Nat) (s : Sentence) : Sentence :=
  { s with startOff := shiftDel a b s.startOff, endOff := shiftDel a b s.endOff }

def Paragraph.shiftDelete (a b : Nat) (p : Paragraph) : Paragraph :=
  { p with startOff := shiftDel a b p.startOff, endOff := shiftDel a b p.endOff,
           sentences := p.sentences.map (Sentence.shiftDelete a b) }

def Section.shiftDelete (a b : Nat) (s : Section) : Section :=
  { s with startOff := shiftDel a b s.startOff, endOff := shiftDel a b s.endOff,
           paragraphs := s.paragraphs.map (Paragraph.shiftDelete a b) }

/-! ## Construction

`Article.__init__` starts from an empty buffer and appends each section's
text at the end-iter mark; the `Section`/`Paragraph`/`Sentence` constructors
(missing from src/) insert the node's text at the given iter and record
marks.  Initial construction is append-only, so each constructor below takes
the offset at which its text begins and returns the node plus the text it
contributes. -/

/-- Modelled from the spec: the `Sentence` constructor
(`Sentence(sentence_data, buf, iter)`, `sentence.py` missing from src/)
inserts the sentence's text at the iter and marks the spanned range. -/
def Sentence.construct (d : SentenceData) (o : Nat) : Sentence :=
  { idz := d.idz, source_article_id := d.source_article_id,
    source_section_id := d.source_section_id,
    source_paragraph_id := d.source_paragraph_id,
    source_sentence_id := d.source_sentence_id,
    startOff := o, endOff := o + d.text.length }

/-- Modelled from the spec: the `Paragraph` constructor (`paragraph.py`
missing from src/) builds its data Sentences in order and then a terminating
separator Sentence holding the structural `"\n"` (§3 invariant 3: a
structural separator exists between every pair of adjacent Paragraphs;
`Article.check_integrity` itself synthesizes exactly such
`SentenceData(-1,-1,-1,-1,-1,"\n",None)` sentences when repairing).
Returns the node and the text it inserted. -/
def Paragraph.construct (d : ParagraphData) (o : Nat) : Paragraph × List Char :=
  let step := d.sentences_data.foldl
    (fun (acc : List Sentence × List Char) sd =>
      (acc.1 ++ [Sentence.construct sd (o + acc.2.length)], acc.2 ++ sd.text.data))
    ([], [])
  let o2 := o + step.2.length
  let term : Sentence := { idz := -1, startOff := o2, endOff := o2 + 1 }
  ({ idz := d.idz, source_article_id := d.source_article_id,
     source_section_id := d.source_section_id,
     source_paragraph_id := d.source_paragraph_id,
     sentences := step.1 ++ [term], startOff := o, endOff := o2 + 1 },
   step.2 ++ ['\n'])

/-- Modelled from the spec: the `Section` constructor (`section.py` missing
from src/) builds its data Paragraphs in order and then a terminating empty
Paragraph (one separator Sentence), so that a well-formed Section's text
ends in `"\n\n"` — exactly the condition `text[-2] == "\n"` that
`Article.check_integrity` tests between adjacent Sections.  Returns the node
and the text it inserted. -/
def Section.construct (d : SectionData) (o : Nat) : Section × List Char :=
  let step := d.paragraphs_data.foldl
    (fun (acc : List Paragraph × List Char) pd =>
      let pc := Paragraph.construct pd (o + acc.2.length)
      (acc.1 ++ [pc.1], acc.2 ++ pc.2))
    ([], [])
  let sentinel := Paragraph.construct { idz := -1 } (o + step.2.length)
  ({ idz := d.idz, source_article_id := d.source_article_id,
     source_section_id := d.source_section_id,
     paragraphs := step.1 ++ [sentinel.1], startOff := o,
     endOff := o + step.2.length + 1, dummy := false },
   step.2 ++ sentinel.2)

/-- Modelled from the spec: `dummySection(buf, iter, gravity)` (`section.py`
missing from src/): a synthetic sentinel Section pinned at the given
position, with no Paragraphs (§3: "no Section is empty (except the two
dummies)") and hence zero width — it inserts no text. -/
def dummySection (o : Nat) : Section :=
  { idz := -1, paragraphs := [], startOff := o, endOff := o, dummy := true }

namespace Article

/-- `Article.__init__(article_data)`: copy the scalar attributes, build each
section at the moving insertion mark (append-only from an empty buffer),
then bracket the section list with the two dummy Sections, the first at the
buffer start iter and the second at the end iter. -/
def construct (d : ArticleData) : ArticleState :=
  let step := d.sections_data.foldl
    (fun (acc : List Section × List Char) sd =>
      let sc := Section.construct sd acc.2.length
      (acc.1 ++ [sc.1], acc.2 ++ sc.2))
    ([], [])
  { idz := d.idz, source_article_id := d.source_article_id,
    article_title := d.article_title, article_theme := d.article_theme,
    image_list := d.image_list, buf := step.2,
    sections := [dummySection 0] ++ step.1 ++ [dummySection step.2.length] }

end Article

/-! ## Extraction (`getData`) -/

/-- Modelled from the spec: `Sentence.getData` reads the sentence's current
buffer slice back into a `SentenceData`. -/
def Sentence.getData (buf : List Char) (s : Sentence) : SentenceData :=
  { idz := s.idz, source_article_id := s.source_article_id,
    source_section_id := s.source_section_id,
    source_paragraph_id := s.source_paragraph_id,
    source_sentence_id := s.source_sentence_id,
    text := String.mk (sliceBuf buf s.startOff s.endOff) }

/-- Modelled from the spec: `Paragraph.getData` emits the data Sentences and
drops the trailing separator Sentence (§3: "A Sentence with empty text is a
placeholder/separator, never persisted in a Snapshot extraction"). -/
def Paragraph.getData (buf : List Char) (p : Paragraph) : ParagraphData :=
  { idz := p.idz, source_article_id := p.source_article_id,
    source_section_id := p.source_section_id,
    source_paragraph_id := p.source_paragraph_id,
    sentences_data := p.sentences.dropLast.map (Sentence.getData buf) }

/-- Modelled from the spec: `Section.getData` emits the data Paragraphs and
drops the trailing sentinel Paragraph, inverting `Section.construct`. -/
def Section.getData (buf : List Char) (s : Section) : SectionData :=
  { idz := s.idz, source_article_id := s.source_article_id,
    source_section_id := s.source_section_id,
    paragraphs_data := s.paragraphs.dropLast.map (Paragraph.getData buf) }

/-- Modelled from the spec: `Section.generateIds` (§3 invariant 4: ids are
unique among siblings-of-type at extraction time, (re)assigned on demand):
renumber the Section's Paragraphs, and each Paragraph's Sentences,
sequentially from 0. -/
def Sentence.renumber (j : Nat) (t : Sentence) : Sentence :=
  { t with idz := (j : Int) }

def Paragraph.renumber (i : Nat) (p : Paragraph) : Paragraph :=
  { p with idz := (i : Int), sentences := p.sentences.mapIdx Sentence.renumber }

def Section.generateIds (s : Section) : Section :=
  { s with paragraphs := s.paragraphs.mapIdx Paragraph.renumber }

/-! ## Reconciliation (`Article.check_integrity`) -/

/-- Modelled from the spec: the Paragraph-level walk of §4.2 performed by
`Section.checkIntegrity` (`section.py` missing from src/), mirroring the
Article-level loop of the source: walk adjacent Paragraph pairs in order; a
Paragraph whose start no longer precedes the next one's start is discarded
(absorbed); if the text up to the next Paragraph's start no longer ends with
the separator `"\n"`, reparent its Sentences onto the front of the next
Paragraph (merge); otherwise keep it, re-deriving its end as the next
Paragraph's start.  Sentence-level structure is kept as-is (the core does no
re-segmentation, §1 non-goals). -/
def paraLoop (buf : List Char) (cur : Paragraph) :
    List Paragraph → Nat → List Paragraph
  | [], nextiter => [{ cur with endOff := nextiter }]
  | np :: rest, nextiter =>
    if cur.startOff < np.startOff then
      let tx := sliceBuf buf cur.startOff np.startOff
      if tx ≠ [] ∧ tx.getLast? ≠ some '\n' then
        paraLoop buf { np with sentences := cur.sentences ++ np.sentences }
          rest nextiter
      else
        { cur with endOff := np.startOff } :: paraLoop buf np rest nextiter
    else
      paraLoop buf np rest nextiter

/-- Modelled from the spec: `Section.checkIntegrity(nextiter)` (§4.2:
"recursively reconcile that Section's internal Paragraph/Sentence structure
against the sub-range `[start, nextStart)`"): reconcile the Paragraph list
and re-derive the Section's range as the convex hull of the result, ending
at `nextiter`.  Returns a (here always one-element) list of Sections, as the
source consumes it with `sections.extend(...)`. -/
def Section.checkIntegrity (buf : List Char) (s : Section) (nextiter : Nat) :
    List Section :=
  let ps := match s.paragraphs with
    | [] => []
    | p :: rest => paraLoop buf p rest nextiter
  let newStart := ((ps.head?).map Paragraph.startOff).getD s.startOff
  [{ s with paragraphs := ps, startOff := newStart, endOff := nextiter }]

/-- Result of the main `while` loop of `Article.check_integrity`:
`acc` is the local `sections` accumulator, `keptInit ++ [lastSec]` is
`self.__sections` after the loop's in-place deletions (the loop never
deletes the final element, since it stops at `i = len - 1`), and `textv` is
the last value assigned to the local variable `text` (`none` if the loop
never reached the slice — the source then hits an unbound local when the
final block reads `text`, which the surrounding `except` swallows). -/
structure CiRes where
  acc : List Section
  keptInit : List Section
  lastSec : Section
  textv : Option (List Char)
deriving Repr

/-- The main loop of `Article.check_integrity` (article.py lines 137-155),
one call per index `i` with `cur = self.__sections[i]`:
if `cur` starts strictly before the next section, slice the text between
the two starts; if that text has length > 2 and `text[-2] != "\n"` the two
sections are merged (the next section's paragraph list is prefixed with
`cur`'s and `cur` is not emitted); otherwise `cur.checkIntegrity(next
start)` is emitted.  If `cur` does not start strictly before the next
section it is removed from `self.__sections` and the loop retries at the
same index. -/
def ciLoop (buf : List Char) (cur : Section) :
    List Section → Option (List Char) → CiRes
  | [], t => ⟨[], [], cur, t⟩
  | ns :: rest, t =>
    if cur.startOff < ns.startOff then
      let tx := sliceBuf buf cur.startOff ns.startOff
      if tx.length > 2 ∧ tx.get? (tx.length - 2) ≠ some '\n' then
        let r := ciLoop buf { ns with paragraphs := cur.paragraphs ++ ns.paragraphs } rest (some tx)
        ⟨r.acc, cur :: r.keptInit, r.lastSec, r.textv⟩
      else
        let r := ciLoop buf ns rest (some tx)
        ⟨Section.checkIntegrity buf cur ns.startOff ++ r.acc,
         cur :: r.keptInit, r.lastSec, r.textv⟩
    else
      ciLoop buf ns rest t

/-- One step of the in-place pruning loops of `Article.check_integrity`
(lines 196-217): examine the elements of the list in order, but stop while
`index < len - 1`, so the final element is never examined; each examined
element is first rewritten by `f` (the nested inner loop) and then deleted
when `keep` rejects it. -/
def pruneSeq (f : α → α) (keep : α → Bool) : List α → List α
  | [] => []
  | [a] => [a]
  | a :: b :: rest =>
    let a2 := f a
    if keep a2 then a2 :: pruneSeq f keep (b :: rest)
    else pruneSeq f keep (b :: rest)

/-- The innermost pruning loop (lines 203-209): remove every examined
Sentence whose range is degenerate (`compare ≥ 0`, i.e. `start ≥ end`);
the Paragraph's last Sentence is never examined. -/
def Paragraph.pruneSentences (p : Paragraph) : Paragraph :=
  { p with sentences :=
      pruneSeq id (fun t => decide (t.startOff < t.endOff)) p.sentences }

/-- The middle pruning loop (lines 200-213): prune each examined Paragraph's
Sentences, then remove it if its Sentence list became empty; the Section's
last Paragraph is never examined. -/
def Section.prunePars (s : Section) : Section :=
  { s with paragraphs := pruneSeq Paragraph.pruneSentences (fun p => !p.sentences.isEmpty) s.paragraphs }

/-- The outer pruning loop (lines 196-217): starting from index 1 and
stopping before the final index, prune each Section's Paragraphs and remove
the Section if its Paragraph list became empty.  The element at index 0 and
the final element are never examined. -/
def prunePass : List Section → List Section
  | [] => []
  | a :: rest => a :: pruneSeq Section.prunePars (fun s => !s.paragraphs.isEmpty) rest

/-- `Article.generate_ids` (lines 221-223): regenerate ids for the sections
`self.__sections[1 : len - 1]`, i.e. every element except the first and the
last. -/
def mapInit (f : α → α) : List α → List α
  | [] => []
  | [a] => [a]
  | a :: b :: rest => f a :: mapInit f (b :: rest)

def Article.generate_ids (secs : List Section) : List Section :=
  match secs with
  | [] => []
  | a :: rest => a :: mapInit Section.generateIds rest

/-- Lines 191-217 of `Article.check_integrity`: rebuild `self.__sections`
as the accumulated sections plus a fresh end dummy at the buffer end, then
`generate_ids`, then the pruning pass. -/
def ciFinish (buf : List Char) (secs : List Section) (st : ArticleState) :
    ArticleState :=
  { st with buf := buf,
            sections := prunePass (Article.generate_ids (secs ++ [dummySection buf.length])) }

/-- The repair block of lines 159-188, applied to the final section `L` when
its start still precedes the buffer end and the (stale) loop-local `text`
indicates a missing trailing separator.  Returns `none` when the source
would raise (`pars[-1]` or `pars[-2]` on a too-short list) — the outer
`except` then leaves `self.__sections` as the post-loop list.  On success
returns the new buffer, the accumulator and `L` with mark adjustments
applied, following the source's order: the separator Sentence is built at
`par.getStart()` (inserting `"\n"` there) and appended to `pars[-2]`, and/or
a fresh empty Paragraph is built at `par.getEnd()` and appended. -/
def repairLast (buf : List Char) (acc : List Section) (L : Section)
    (t : List Char) : Option (List Char × List Section × Section) :=
  match L.paragraphs.getLast? with
  | none => none
  | some par =>
    if t.getLast? ≠ some '\n' then
      if L.paragraphs.length < 2 then none
      else
        -- pars[-2].sentences.append(Sentence("\n", buf, par.getStart()))
        let o := par.startOff
        let sen : Sentence := { idz := -1, startOff := o, endOff := o + 1 }
        let buf2 := insertAt buf o ['\n']
        let acc2 := acc.map (Section.shiftIns o 1)
        let L2 := Section.shiftIns o 1 L
        let n := L2.paragraphs.length
        let L3 := { L2 with paragraphs := L2.paragraphs.modify (fun q => { q with sentences := q.sentences ++ [sen] }) (n - 2) }
        -- pars.append(Paragraph(ParagraphData(-1,-1,-1,-1,[]), buf, par.getEnd()))
        let parEnd := shiftR o 1 par.endOff
        let pc := Paragraph.construct { idz := -1 } parEnd
        let buf3 := insertAt buf2 parEnd pc.2
        let acc3 := acc2.map (Section.shiftIns parEnd pc.2.length)
        let L4 := Section.shiftIns parEnd pc.2.length L3
        some (buf3, acc3, { L4 with paragraphs := L4.paragraphs ++ [pc.1] })
    else if sliceBuf buf par.startOff par.endOff = ['\n'] then
      if L.paragraphs.length < 2 then none
      else
        let o := par.startOff
        let sen : Sentence := { idz := -1, startOff := o, endOff := o + 1 }
        let buf2 := insertAt buf o ['\n']
        let acc2 := acc.map (Section.shiftIns o 1)
        let L2 := Section.shiftIns o 1 L
        let n := L2.paragraphs.length
        let L3 := { L2 with paragraphs := L2.paragraphs.modify (fun q => { q with sentences := q.sentences ++ [sen] }) (n - 2) }
        some (buf2, acc2, L3)
    else
      let pc := Paragraph.construct { idz := -1 } par.endOff
      let buf2 := insertAt buf par.endOff pc.2
      let acc2 := acc.map (Section.shiftIns par.endOff pc.2.length)
      let L2 := Section.shiftIns par.endOff pc.2.length L
      some (buf2, acc2, { L2 with paragraphs := L2.paragraphs ++ [pc.1] })

/-- `Article.check_integrity` (lines 130-219): run the section-pair loop,
handle the final section against the buffer end (using the stale loop-local
`text`), rebuild the section list with a fresh end dummy, regenerate ids and
prune.  The body's own `try/except` means any internal fault leaves the
state as mutated so far: the modelled fault points are the unbound `text`
(loop never sliced) and the `pars[-1]`/`pars[-2]` lookups of the repair
block, at which moment `self.__sections` is the post-loop list. -/
def Article.check_integrity (st : ArticleState) : ArticleState :=
  match st.sections with
  | [] => st  -- self.__sections[-1] raises IndexError; except leaves state unchanged
  | c :: rest =>
    let r := ciLoop st.buf c rest none
    let L := r.lastSec
    if L.startOff < st.buf.length then
      match r.textv with
      | none => { st with sections := r.keptInit ++ [L] }
      | some t =>
        if t.length > 2 ∧ t.get? (t.length - 2) ≠ some '\n' then
          match repairLast st.buf r.acc L t with
          | none => { st with sections := r.keptInit ++ [L] }
          | some (buf2, acc2, L2) =>
            ciFinish buf2 (acc2 ++ Section.checkIntegrity buf2 L2 buf2.length) st
        else
          ciFinish st.buf (r.acc ++ Section.checkIntegrity st.buf L st.buf.length) st
    else
      ciFinish st.buf r.acc st

/-- The snapshot built by the body of `Article.get_data` (lines 107-123)
from an (already reconciled) state: the scalar attributes plus the data of
`self.__sections[1 : len - 1]`, in document order. -/
def extractData (st : ArticleState) : ArticleData :=
  { idz := st.idz, source_article_id := st.source_article_id,
    article_title := st.article_title, article_theme := st.article_theme,
    sections_data := ((st.sections.drop 1).dropLast).map (Section.getData st.buf),
    image_list := st.image_list }

/-- `Article.get_data` (lines 101-128): run `check_integrity` first, then
walk the sections between the first and last list entries emitting their
data; the `try/except` maps any thrown fault to `None` instead of
propagating it (the modelled walk itself is total). -/
def Article.get_data (st : ArticleState) : Option ArticleData :=
  some (extractData (Article.check_integrity st))

/-! ## Position lookup -/

/-- The scanning loop shared by `Article.__get_exact_section` and, at the
other levels, by the modelled `getParagraph`/`getSentence` (§4.1 locate
contract): given the start offsets of the siblings, return the first index
`i` such that `loc` precedes sibling `i+1`'s start, else the final index.
(The Python original returns `len - 1 = -1` for an empty list and its caller
then raises; we return 0 there, and every theorem below that touches this
function carries a non-empty-list hypothesis.) -/
def exactGo (loc : Nat) (i : Nat) : List Nat → Nat
  | _ :: b :: rest => if loc < b then i else exactGo loc (i + 1) (b :: rest)
  | _ => i

/-- `Article.__get_exact_section(lociter)` (lines 651-660). -/
def Article.getExactSection (st : ArticleState) (loc : Nat) : Nat :=
  exactGo loc 0 (st.sections.map Section.startOff)

/-- `Article.__get_best_section(lociter)` (lines 631-649): find the
containing section, compare the distance from `lociter` to its start with
the distance to its end (as Python ints), and move one gap right when the
left distance is strictly greater. -/
def Article.get_best_section_index (st : ArticleState) (loc : Nat) : Nat :=
  let i := Article.getExactSection st loc
  match st.sections.get? i with
  | none => i  -- self.__sections[i] raises on an empty list; unreachable under the theorems' hypotheses
  | some s =>
    let leftdist : Int := (loc : Int) - (s.startOff : Int)
    let rightdist : Int := (s.endOff : Int) - (loc : Int)
    if i < st.sections.length ∧ leftdist > rightdist then i + 1 else i

/-- `Article.get_best_section(lociter)` (lines 716-726), reduced to the gap
offset it designates (`.getStart()` of the returned section; the source
returns `self.__sections[-1]` when the best index is one past the end). -/
def Article.get_best_section_start (st : ArticleState) (loc : Nat) : Nat :=
  let i := Article.get_best_section_index st loc
  if i = st.sections.length then
    match st.sections.getLast? with
    | some s => s.startOff
    | none => 0
  else
    match st.sections.get? i with
    | some s => s.startOff
    | none => 0

/-! ## Section deletion -/

/-- Modelled from the spec: `Section.delete()` (`section.py` missing from
src/) deletes the section's buffer range and releases its marks (§3
lifecycle); the caller removes the node from `self.__sections`. -/
def deleteSectionAt (st : ArticleState) (idx : Nat) : ArticleState :=
  match st.sections.get? idx with
  | none => st
  | some s =>
    let buf2 := deleteAt st.buf s.startOff s.endOff
    let secs2 := (st.sections.eraseIdx idx).map (Section.shiftDelete s.startOff s.endOff)
    { st with buf := buf2, sections := secs2 }

/-- `Article.delete_section(lociter)` (lines 513-521): find the exact
section containing the position and delete it — unless it is the final
element of the section list. -/
def Article.delete_section (st : ArticleState) (loc : Nat) : ArticleState :=
  let deletionindex := Article.getExactSection st loc
  if deletionindex ≠ st.sections.length - 1 then deleteSectionAt st deletionindex
  else st

/-- `Article.remove_section(lociter)` (lines 523-530): find the exact
section containing the position and delete it, with no guard at all. -/
def Article.remove_section (st : ArticleState) (loc : Nat) : ArticleState :=
  let removalindex := Article.getExactSection st loc
  deleteSectionAt st removalindex

/-! ## Data ranges and section splitting -/

/-- Modelled from the spec: `Section.getDataRange(a, b)` (`section.py`
missing from src/; §6 `rangeBetween(startPos, endPos) -> Snapshot
fragment`): for each Paragraph, the data of those Sentences whose range is
wholly inside `[a, b)` and non-degenerate (degenerate sentences are
never-persisted placeholders, §3); Paragraphs contributing no such Sentence
are omitted. -/
def Section.getDataRange (buf : List Char) (s : Section) (a b : Nat) :
    List ParagraphData :=
  s.paragraphs.filterMap (fun p =>
    let ss := p.sentences.filter
      (fun t => decide (a ≤ t.startOff) && decide (t.endOff ≤ b) && decide (t.startOff < t.endOff))
    if ss.isEmpty then none
    else some { idz := p.idz, source_article_id := p.source_article_id,
                source_section_id := p.source_section_id,
                source_paragraph_id := p.source_paragraph_id,
                sentences_data := ss.map (Sentence.getData buf) })

/-- Modelled from the spec: `Section.getParagraph(lociter)` as an index
(§4.1 locate contract, same scan as `__get_exact_section`). -/
def Section.getParagraphIdx (s : Section) (loc : Nat) : Nat :=
  exactGo loc 0 (s.paragraphs.map Paragraph.startOff)

/-- Modelled from the spec: `Section.splitParagraph(lociter)` (`section.py`
missing from src/; §4.5 "split that Section's Paragraph containing the
Position into two"): partition the containing Paragraph's Sentences at the
position.  Following §7 ("structural operations that cannot satisfy their
preconditions (e.g., split would produce an empty side) silently abandon
the sub-step"), the split is abandoned when either side would hold no
complete non-degenerate Sentence. -/
def Section.splitParagraph (s : Section) (loc : Nat) : Section :=
  let pi := Section.getParagraphIdx s loc
  match s.paragraphs.get? pi with
  | none => s
  | some p =>
    let beforeFull := p.sentences.filter
      (fun t => decide (p.startOff ≤ t.startOff) && decide (t.endOff ≤ loc) && decide (t.startOff < t.endOff))
    let afterFull := p.sentences.filter
      (fun t => decide (loc ≤ t.startOff) && decide (t.endOff ≤ p.endOff) && decide (t.startOff < t.endOff))
    if beforeFull = [] ∨ afterFull = [] then s
    else
      let part := p.sentences.partition (fun t => decide (t.endOff ≤ loc))
      let p1 := { p with sentences := part.1, endOff := loc }
      let p2 := { p with sentences := part.2, startOff := loc }
      { s with paragraphs := s.paragraphs.take pi ++ [p1, p2] ++ s.paragraphs.drop (pi + 1) }

/-- `Article.insert_section(section_data, lociter)` (lines 498-511): build a
new Section at the start of the best gap's following section and insert it
at that index (never index 0).  (Python's `list.insert` clamps an index past
the end to an append; `List.insertIdx` leaves the list unchanged there —
the difference is unreachable since `__get_best_section` returns at most
`len`, and at `len` the source raises `IndexError` reading
`self.__sections[len]` first, which we render as returning the state.) -/
def Article.insert_section (st : ArticleState) (d : SectionData) (loc : Nat) :
    ArticleState :=
  let i0 := Article.get_best_section_index st loc
  let insertionindex := if i0 = 0 then 1 else i0
  match st.sections.get? insertionindex with
  | none => st
  | some target =>
    let o := target.startOff
    let sc := Section.construct d o
    let buf2 := insertAt st.buf o sc.2
    let secs2 := (st.sections.map (Section.shiftIns o sc.2.length)).insertIdx insertionindex sc.1
    { st with buf := buf2, sections := secs2 }

/-- `Article.__split_section(lociter)` (lines 752-793): split the containing
Section's Paragraph at the position, extract the data on either side of the
position, and only if both sides are non-empty replace the Section by two
new Sections built from those sides (keeping the source ids).  The
right-gravity mark created at the position tracks the buffer mutations. -/
def Article.split_section (st : ArticleState) (loc : Nat) : ArticleState :=
  let sectionindex := Article.getExactSection st loc
  match st.sections.get? sectionindex with
  | none => st
  | some section0 =>
    let saId := section0.source_article_id
    let ssId := section0.source_section_id
    let section1 := Section.splitParagraph section0 loc
    let st1 := { st with sections := st.sections.set sectionindex section1 }
    let firstdata := Section.getDataRange st1.buf section1 section1.startOff loc
    let seconddata := Section.getDataRange st1.buf section1 loc section1.endOff
    if firstdata ≠ [] ∧ seconddata ≠ [] then
      let st2 := Article.delete_section st1 loc
      let m1 := if Article.getExactSection st1 loc ≠ st1.sections.length - 1 then
          shiftDel section1.startOff section1.endOff loc
        else loc
      let sd1 : SectionData :=
        { idz := -1, source_article_id := saId, source_section_id := ssId, paragraphs_data := firstdata }
      let sc1 := Section.construct sd1 m1
      let buf3 := insertAt st2.buf m1 sc1.2
      let secs3 := (st2.sections.map (Section.shiftIns m1 sc1.2.length)).insertIdx sectionindex sc1.1
      let st3 := { st2 with buf := buf3, sections := secs3 }
      let m2 := m1 + sc1.2.length
      let sd2 : SectionData :=
        { idz := -1, source_article_id := saId, source_section_id := ssId, paragraphs_data := seconddata }
      let sc2 := Section.construct sd2 m2
      let buf4 := insertAt st3.buf m2 sc2.2
      let secs4 := (st3.sections.map (Section.shiftIns m2 sc2.2.length)).insertIdx (sectionindex + 1) sc2.1
      { st3 with buf := buf4, sections := secs4 }
    else st1

/-! ## Runs (mixed-granularity object lists) and range extraction -/

/-- A run element as discriminated by `obj.type` in the source
(`sentence | picture | paragraph | section`, §9: a tagged variant). -/
inductive RunObj where
  | sentence (d : SentenceData)
  | picture (d : SentenceData)
  | paragraph (d : ParagraphData)
  | section (d : SectionData)
deriving Repr, DecidableEq, Inhabited

/-- `Article.get_range(startiter, enditer)` (lines 456-490): if both
positions fall in the same section, that section's data range; otherwise
the start section's tail (or its whole data if the range starts exactly at
its start, then a sentinel empty ParagraphData), the whole middle sections,
and the end section's head.  The surrounding `try/except` turns any fault
into an implicit `None`. -/
def Article.get_range (st : ArticleState) (startiter enditer : Nat) :
    Option (List RunObj) :=
  let startindex := Article.getExactSection st startiter
  let endindex := Article.getExactSection st enditer
  if startindex = endindex then
    match st.sections.get? startindex with
    | none => none
    | some s =>
      some ((Section.getDataRange st.buf s startiter enditer).map RunObj.paragraph)
  else
    match st.sections.get? startindex, st.sections.get? endindex with
    | some ss, some es =>
      let startdata : List RunObj :=
        if startiter = ss.startOff then [RunObj.section (Section.getData st.buf ss)]
        else (Section.getDataRange st.buf ss startiter ss.endOff).map RunObj.paragraph
              ++ [RunObj.paragraph { idz := -1 }]
      let middledata : List RunObj :=
        ((st.sections.drop (startindex + 1)).take (endindex - (startindex + 1))).map
          (fun x => RunObj.section (Section.getData st.buf x))
      let enddata : List RunObj :=
        if endindex ≠ st.sections.length then
          (Section.getDataRange st.buf es es.startOff enditer).map RunObj.paragraph
        else []
      some (startdata ++ middledata ++ enddata)
    | _, _ => none

/-- `Article.get_selection()` (lines 440-454): read the buffer's selection
bounds and, when the first bound lies after the second
(`bounds[0].compare(bounds[1]) == 1`), swap them before calling
`get_range`.  The selection bounds are an input here since the modelled
state does not carry the widget selection. -/
def Article.get_selection (st : ArticleState) (bounds : Nat × Nat) :
    Option (List RunObj) :=
  if bounds.1 > bounds.2 then Article.get_range st bounds.2 bounds.1
  else Article.get_range st bounds.1 bounds.2

/-! ## Structured insertion (`Article.insert` and its helpers) -/

/-- `Article.__pad()` (lines 795-806): append a one-sentence (`" "`) empty
section just before the final dummy. -/
def Article.padEnd (st : ArticleState) : ArticleState :=
  let sd : SectionData :=
    { idz := -1, paragraphs_data := [{ idz := -1, sentences_data := [{ idz := -1, text := " " }] }] }
  match st.sections.getLast? with
  | none => st
  | some lastSec =>
    let o := lastSec.startOff
    let sc := Section.construct sd o
    let buf2 := insertAt st.buf o sc.2
    let secs2 := (st.sections.map (Section.shiftIns o sc.2.length)).insertIdx (st.sections.length - 1) sc.1
    { st with buf := buf2, sections := secs2 }

/-- Modelled from the spec: `Section.pad()` (`section.py` missing from
src/; line 261 comment: "If at the end of the paragraph, pad with an empty
paragraph"): append one empty Paragraph (a single separator Sentence) at
the section's end. -/
def Article.sectionPad (st : ArticleState) (si : Nat) : ArticleState :=
  match st.sections.get? si with
  | none => st
  | some s =>
    let pc := Paragraph.construct { idz := -1 } s.endOff
    let buf2 := insertAt st.buf s.endOff pc.2
    let secs2 := st.sections.map (Section.shiftIns s.endOff pc.2.length)
    let secs3 := secs2.modify (fun x => { x with paragraphs := x.paragraphs ++ [pc.1] }) si
    { st with buf := buf2, sections := secs3 }

/-- Modelled from the spec: `Paragraph.getBestSentence(lociter).getStart()`
(`paragraph.py` missing from src/; §4.1 closest-gap policy at Sentence
level): the start of the sentence after the nearer gap, ties to the left. -/
def Paragraph.getBestSentenceStart (p : Paragraph) (loc : Nat) : Nat :=
  let i := exactGo loc 0 (p.sentences.map Sentence.startOff)
  let iBest := match p.sentences.get? i with
    | none => i
    | some t =>
      if ((loc : Int) - (t.startOff : Int)) > ((t.endOff : Int) - (loc : Int)) then i + 1 else i
  match p.sentences.get? iBest with
  | some t => t.startOff
  | none => p.endOff

/-- Modelled from the spec: `Section.getBestParagraph(lociter).getStart()`
(§4.1 closest-gap policy at Paragraph level). -/
def Section.getBestParagraphStart (s : Section) (loc : Nat) : Nat :=
  let i := exactGo loc 0 (s.paragraphs.map Paragraph.startOff)
  let iBest := match s.paragraphs.get? i with
    | none => i
    | some p =>
      if ((loc : Int) - (p.startOff : Int)) > ((p.endOff : Int) - (loc : Int)) then i + 1 else i
  match s.paragraphs.get? iBest with
  | some p => p.startOff
  | none => s.endOff

/-- Modelled from the spec: `Paragraph.insertSentence(obj, iter)`
(`paragraph.py` missing from src/): build the Sentence at the iter
(inserting its text) and place the node into the Paragraph at index `si`,
`pi` of the hierarchy, ordered by offset (new text inserted at an existing
node's start precedes it). -/
def Article.insertSentenceAt (st : ArticleState) (si pi : Nat)
    (d : SentenceData) (o : Nat) : ArticleState :=
  let sen := Sentence.construct d o
  let n := d.text.length
  let buf2 := insertAt st.buf o d.text.data
  let secs2 := st.sections.map (Section.shiftIns o n)
  let secs3 := secs2.modify (fun x =>
    { x with paragraphs := x.paragraphs.modify (fun q =>
        let idx := (q.sentences.filter (fun t => decide (t.startOff < o))).length
        { q with sentences := q.sentences.insertIdx idx sen }) pi }) si
  { st with buf := buf2, sections := secs3 }

/-- Modelled from the spec: `Section.insertParagraph(obj, iter)`
(`section.py` missing from src/): build the Paragraph at the iter and place
the node into Section `si`, ordered by offset. -/
def Article.insertParagraphAt (st : ArticleState) (si : Nat)
    (d : ParagraphData) (o : Nat) : ArticleState :=
  let pc := Paragraph.construct d o
  let buf2 := insertAt st.buf o pc.2
  let secs2 := st.sections.map (Section.shiftIns o pc.2.length)
  let secs3 := secs2.modify (fun x =>
    let idx := (x.paragraphs.filter (fun q => decide (q.startOff < o))).length
    { x with paragraphs := x.paragraphs.insertIdx idx pc.1 }) si
  { st with buf := buf2, sections := secs3 }

/-- Modelled from the spec: `Paragraph.clean()` — drop the zero-width
placeholder Sentences a structural sentinel may have left behind. -/
def Paragraph.clean (p : Paragraph) : Paragraph :=
  { p with sentences := p.sentences.filter (fun t => decide (t.startOff < t.endOff)) }

/-- Modelled from the spec: `Section.clean()` — remove the trailing padding
Paragraph when it is still zero-width (cf. `Article.__clean`: "Removes the
effects of one use of pad"). -/
def Section.clean (s : Section) : Section :=
  match s.paragraphs.getLast? with
  | some p => if p.startOff = p.endOff then { s with paragraphs := s.paragraphs.dropLast } else s
  | none => s

/-- Phase 1 of `Article.insert` (lines 298-310): insert leading
sentence/picture elements at the advancing right-gravity insertion mark
until a sentinel (empty text) or a non-leaf element is met; a sentinel sets
the split flag and is consumed.  Returns the state, the mark, the remaining
objects and the flag. -/
def insertLeading (si pi : Nat) :
    ArticleState → Nat → List RunObj → ArticleState × Nat × List RunObj × Bool
  | st, m, [] => (st, m, [], false)
  | st, m, RunObj.sentence d :: rest =>
    if d.text ≠ "" then
      insertLeading si pi (Article.insertSentenceAt st si pi d m) (m + d.text.length) rest
    else (st, m, rest, true)
  | st, m, RunObj.picture d :: rest =>
    if d.text ≠ "" then
      insertLeading si pi (Article.insertSentenceAt st si pi d m) (m + d.text.length) rest
    else (st, m, rest, true)
  | st, m, objs => (st, m, objs, false)

/-- Phase 2 of `Article.insert` (lines 315-324), on the reversed remainder:
insert trailing sentence/picture elements at the fixed left-gravity split
mark (each lands before the previously inserted one, restoring original
order). -/
def insertTrailingRev (si pi s : Nat) :
    ArticleState → List RunObj → ArticleState × List RunObj
  | st, [] => (st, [])
  | st, RunObj.sentence d :: revRest =>
    insertTrailingRev si pi s (Article.insertSentenceAt st si pi d s) revRest
  | st, RunObj.picture d :: revRest =>
    insertTrailingRev si pi s (Article.insertSentenceAt st si pi d s) revRest
  | st, objs => (st, objs)

/-- Phase 1 of `Article.__insert_paragraphs` (lines 381-397). -/
def insertLeadingPars (si : Nat) :
    ArticleState → Nat → List RunObj → ArticleState × Nat × List RunObj × Bool
  | st, m, [] => (st, m, [], false)
  | st, m, RunObj.paragraph d :: rest =>
    if !d.sentences_data.isEmpty then
      let st2 := Article.insertParagraphAt st si d m
      insertLeadingPars si st2 (m + (Paragraph.construct d m).2.length) rest
    else (st, m, rest, true)
  | st, m, objs => (st, m, objs, false)

/-- Phase 2 of `Article.__insert_paragraphs` (lines 402-412), reversed. -/
def insertTrailingParsRev (si s : Nat) :
    ArticleState → List RunObj → ArticleState × List RunObj
  | st, [] => (st, [])
  | st, RunObj.paragraph d :: revRest =>
    insertTrailingParsRev si s (Article.insertParagraphAt st si d s) revRest
  | st, objs => (st, objs)

/-- `Article.get_paragraph(lociter).getStart()` (lines 736-742 composed with
the modelled `Section.getParagraph`). -/
def Article.get_paragraph_start (st : ArticleState) (loc : Nat) : Nat :=
  match st.sections.get? (Article.getExactSection st loc) with
  | none => loc
  | some s =>
    match s.paragraphs.get? (Section.getParagraphIdx s loc) with
    | none => loc
    | some p => p.startOff

/-- `Article.__insert_sections(objects, lociter)` (lines 427-438): find the
closest section gap and insert each object there in turn (the right-gravity
mark keeps the elements in order).  A non-section element would make
`insert_section` raise; the fault is swallowed by the caller's `except`,
rendered here by stopping. -/
def insertSectionsGo : ArticleState → Nat → List RunObj → ArticleState
  | st, _, [] => st
  | st, m, RunObj.section d :: rest =>
    let st2 := Article.insert_section st d m
    insertSectionsGo st2 (m + (Section.construct d m).2.length) rest
  | st, _, _ => st

def Article.insert_sections (st : ArticleState) (objects : List RunObj)
    (loc : Nat) : ArticleState :=
  insertSectionsGo st (Article.get_best_section_start st loc) objects

/-- `Article.__insert_paragraphs(objects, lociter)` (lines 344-425). -/
def Article.insert_paragraphs (st : ArticleState) (objects : List RunObj)
    (loc : Nat) : ArticleState :=
  let sn := Article.getExactSection st loc
  match st.sections.get? sn with
  | none => st
  | some section0 =>
    -- line 365: offset the insertion point by one so the paragraphs do not
    -- land at the very start of the section
    let loc1 := loc + 1
    let m0 := Section.getBestParagraphStart section0 loc1
    let objects1 := match objects with
      | RunObj.section sd :: rest =>
        sd.paragraphs_data.map RunObj.paragraph ++ [RunObj.paragraph { idz := -1 }] ++ rest
      | _ => objects
    let step1 := insertLeadingPars sn st m0 objects1
    let st1 := step1.1
    let splitmark := step1.2.1
    let step2 := insertTrailingParsRev sn splitmark st1 step1.2.2.1.reverse
    let st2 := step2.1
    let rem := step2.2.reverse
    if step1.2.2.2 then
      let offset := splitmark
      let splititer := Article.get_paragraph_start st2 splitmark
      let st3 := Article.split_section st2 splititer
      if rem ≠ [] then Article.insert_sections st3 rem offset else st3
    else st2

/-- `Article.insert(objects, lociter)` for a non-empty run (lines 237-342):
resolve the containing section (padding at the article end), the best
paragraph (padding at the section end) and the best sentence gap; unwrap a
leading section/paragraph element; splice leading and trailing
sentence-level elements; clean; and if a sentinel was hit, split the
paragraph and recurse at paragraph granularity. -/
def Article.insertNonEmpty (st : ArticleState) (objects : List RunObj)
    (loc : Nat) : ArticleState :=
  let sn := Article.getExactSection st loc
  let padded := sn = st.sections.length - 1
  let st0 := if padded then Article.padEnd st else st
  let loc0 := if padded then
      match st0.sections.get? (st0.sections.length - 2) with
      | some s => s.startOff
      | none => loc
    else loc
  match st0.sections.get? sn with
  | none => st0
  | some section0 =>
    -- lines 249-256 compute the `extra` highlight offset; the highlight
    -- marks (lines 270-279) are presentation-only and not part of the state
    let pIdx := Section.getParagraphIdx section0 loc0
    let parPadded := pIdx = section0.paragraphs.length - 1
    let st1 := if parPadded then Article.sectionPad st0 sn else st0
    match st1.sections.get? sn with
    | none => st1
    | some section1 =>
      let pIdx1 := if parPadded then section1.paragraphs.length - 2 else pIdx
      match section1.paragraphs.get? pIdx1 with
      | none => st1
      | some paragraph1 =>
        let loc1 := if parPadded then paragraph1.startOff else loc0
        let m0 := Paragraph.getBestSentenceStart paragraph1 loc1
        let objects1 := match objects with
          | RunObj.section sd :: rest =>
            sd.paragraphs_data.map RunObj.paragraph ++ [RunObj.paragraph { idz := -1 }] ++ rest
          | _ => objects
        let objects2 := match objects1 with
          | RunObj.paragraph pd :: rest =>
            pd.sentences_data.map RunObj.sentence ++ [RunObj.sentence { idz := -1, text := "" }] ++ rest
          | _ => objects1
        let step1 := insertLeading sn pIdx1 st1 m0 objects2
        let st2 := step1.1
        let splitmark := step1.2.1
        let split := step1.2.2.2
        let step2 := insertTrailingRev sn pIdx1 splitmark st2 step1.2.2.1.reverse
        let st3 := step2.1
        let rem := step2.2.reverse
        -- lines 326-328: paragraph.clean(); section.clean()
        let st4 := { st3 with sections := st3.sections.modify (fun x =>
            Section.clean { x with paragraphs := x.paragraphs.modify Paragraph.clean pIdx1 }) sn }
        if split then
          let offset := splitmark
          let st5 := { st4 with sections := st4.sections.modify (fun x => Section.splitParagraph x splitmark) sn }
          if rem ≠ [] then Article.insert_paragraphs st5 rem offset else st5
        else st4

/-- `Article.insert(objects, lociter)` (lines 225-342): an empty run
returns immediately (lines 234-235), before anything is resolved or
mutated. -/
def Article.insert (st : ArticleState) (objects : List RunObj) (loc : Nat) :
    ArticleState :=
  if objects.isEmpty then st
  else Article.insertNonEmpty st objects loc

/-! ## Well-formedness predicates and concrete instances used by the theorems -/

/-- The no-empty / no-degenerate property of §8 ("after reconciliation, no
Paragraph has zero Sentences and no non-dummy Section has zero Paragraphs")
together with the degenerate-Sentence clause of §4.2, as a decidable check
over an article state. -/
def noDegenerateInvariant (st : ArticleState) : Bool :=
  st.sections.all (fun s =>
    (s.dummy || !s.paragraphs.isEmpty) &&
    s.paragraphs.all (fun p =>
      !p.sentences.isEmpty && p.sentences.all (fun t => decide (t.startOff < t.endOff))))

/-- Contiguity and separator well-formedness of a Paragraph chain against a
closing position (§3 invariant 1 and 3, restricted to what the Section-level
reconciliation walk tests): each Paragraph starts strictly before the next,
ends exactly at the next one's start, and the text up to the next start ends
with the separator; the last Paragraph ends at the closing position. -/
def parChainWF (buf : List Char) : Paragraph → List Paragraph → Nat → Bool
  | cur, [], n => decide (cur.endOff = n)
  | cur, np :: rest, n =>
    decide (cur.startOff < np.startOff) && decide (cur.endOff = np.startOff) &&
    decide ((sliceBuf buf cur.startOff np.startOff).getLast? = some '\n') &&
    parChainWF buf np rest n

/-- A one-sentence ("x") one-paragraph snapshot section with canonically
assigned ids (the ids `Section.generateIds` itself would produce). -/
def exSentX : SentenceData :=
  { idz := 0, source_article_id := 1, source_section_id := 1, source_paragraph_id := 1, source_sentence_id := 1, text := "x" }

def exParX : ParagraphData :=
  { idz := 0, source_article_id := 1, source_section_id := 1, source_paragraph_id := 1, sentences_data := [exSentX] }

def exA : SectionData :=
  { idz := 0, source_article_id := 1, source_section_id := 1, paragraphs_data := [exParX] }

def exSentY : SentenceData :=
  { idz := 0, source_article_id := 1, source_section_id := 2, source_paragraph_id := 1, source_sentence_id := 1, text := "y" }

def exParY : ParagraphData :=
  { idz := 0, source_article_id := 1, source_section_id := 2, source_paragraph_id := 1, sentences_data := [exSentY] }

def exB : SectionData :=
  { idz := 0, source_article_id := 1, source_section_id := 2, paragraphs_data := [exParY] }

/-- A well-formed two-section snapshot with no two adjacent empty
containers and canonical ids. -/
def exArt : ArticleData :=
  { idz := 7, source_article_id := 1, article_title := "t", article_theme := "th", sections_data := [exA, exB], image_list := [] }

/-- A well-formed one-section snapshot. -/
def exArt1 : ArticleData :=
  { idz := 7, source_article_id := 1, article_title := "t", article_theme := "th", sections_data := [exA], image_list := [] }

/-- An article state (buffer `"a\n\n"`) whose single real Section is well
formed except that the final Sentence of its final Paragraph is degenerate
(range `[3, 3)`), as free deletion of exactly that span leaves it. -/
def ex3Par1 : Paragraph :=
  { idz := 0, sentences := [{ idz := 0, startOff := 0, endOff := 1 }, { idz := 1, startOff := 1, endOff := 2 }], startOff := 0, endOff := 2 }

def ex3Par2 : Paragraph :=
  { idz := 1, sentences := [{ idz := 2, startOff := 2, endOff := 3 }, { idz := 5, startOff := 3, endOff := 3 }], startOff := 2, endOff := 3 }

def ex3Sec : Section :=
  { idz := 0, paragraphs := [ex3Par1, ex3Par2], startOff := 0, endOff := 3, dummy := false }

def ex3 : ArticleState :=
  { buf := ['a', '\n', '\n'], sections := [dummySection 0, ex3Sec, dummySection 3] }

/-- An article state (buffer `"ab\nc\n\n"`) whose first real Section has
lost the separator before the second one: the slice between the two section
starts is `"ab\n"`, whose second-to-last character is not a newline. -/
def c2P1 : Paragraph :=
  { idz := 0, sentences := [{ idz := 0, startOff := 0, endOff := 2 }, { idz := 1, startOff := 2, endOff := 3 }], startOff := 0, endOff := 3 }

def c2P2 : Paragraph :=
  { idz := 2, sentences := [{ idz := 2, startOff := 3, endOff := 4 }, { idz := 3, startOff := 4, endOff := 5 }], startOff := 3, endOff := 5 }

def c2Ps : Paragraph :=
  { idz := 4, sentences := [{ idz := 4, startOff := 5, endOff := 6 }], startOff := 5, endOff := 6 }

def c2s1 : Section :=
  { idz := 1, paragraphs := [c2P1], startOff := 0, endOff := 3, dummy := false }

def c2s2 : Section :=
  { idz := 2, paragraphs := [c2P2, c2Ps], startOff := 3, endOff := 6, dummy := false }

def c2st : ArticleState :=
  { buf := ['a', 'b', '\n', 'c', '\n', '\n'], sections := [dummySection 0, c2s1, c2s2, dummySection 6] }

/-- A well-formed article state (buffer `"a\n\n"`) used to witness the
abandoned-split theorem at the section start (position 0), where the
"before" group is empty. -/
def c5P1 : Paragraph :=
  { idz := 0, sentences := [{ idz := 0, startOff := 0, endOff := 1 }, { idz := 1, startOff := 1, endOff := 2 }], startOff := 0, endOff := 2 }

def c5P2 : Paragraph :=
  { idz := 1, sentences := [{ idz := 2, startOff := 2, endOff := 3 }], startOff := 2, endOff := 3 }

def c5Sec : Section :=
  { idz := 0, paragraphs := [c5P1, c5P2], startOff := 0, endOff := 3, dummy := false }

def c5st : ArticleState :=
  { buf := ['a', '\n', '\n'], sections := [dummySection 0, c5Sec, dummySection 3] }

/-! ## Helper lemmas -/

theorem list_set_get_same : ∀ (l : List α) (i : Nat) (a : α), l.get? i = some a → l.set i a = l
  | [], i, a, h => by cases i <;> simp [List.get?] at h
  | x :: t, 0, a, h => by
      rw [List.get?_cons_zero] at h
      injection h with h2
      rw [List.set_cons_zero, h2]
  | x :: t, i + 1, a, h => by
      rw [List.get?_cons_succ] at h
      rw [List.set_cons_succ, list_set_get_same t i a h]

theorem pruneSeq_ne_nil (f : α → α) (keep : α → Bool) :
    ∀ (l : List α), l ≠ [] → pruneSeq f keep l ≠ []
  | [], h => absurd rfl h
  | [a], _ => by simp [pruneSeq]
  | a :: b :: rest, _ => by
      simp only [pruneSeq]
      split
      · simp
      · exact pruneSeq_ne_nil f keep (b :: rest) (by simp)

theorem pruneSeq_getLast? (f : α → α) (keep : α → Bool) :
    ∀ (l : List α), l ≠ [] → (pruneSeq f keep l).getLast? = l.getLast?
  | [], h => absurd rfl h
  | [a], _ => by simp [pruneSeq]
  | a :: b :: rest, _ => by
      have ih := pruneSeq_getLast? f keep (b :: rest) (by simp)
      obtain ⟨z, hz⟩ : ∃ z, (b :: rest).getLast? = some z := ⟨_, List.getLast?_cons⟩
      simp only [pruneSeq]
      split
      · rw [List.getLast?_cons (a := f a), ih, hz, List.getLast?_cons (a := a), hz]
        rfl
      · rw [ih, List.getLast?_cons (a := a), hz]
        rfl

theorem pruneSeq_dropLast_mem (f : α → α) (keep : α → Bool) :
    ∀ (l : List α) (x : α), x ∈ (pruneSeq f keep l).dropLast →
      keep x = true ∧ ∃ y ∈ l.dropLast, x = f y
  | [], x, h => by simp [pruneSeq] at h
  | [a], x, h => by simp [pruneSeq] at h
  | a :: b :: rest, x, h => by
      have hne : pruneSeq f keep (b :: rest) ≠ [] := pruneSeq_ne_nil f keep _ (by simp)
      simp only [pruneSeq] at h
      by_cases hk : keep (f a) = true
      · rw [if_pos hk] at h
        rw [List.dropLast_cons_of_ne_nil hne] at h
        rcases List.mem_cons.mp h with h1 | h2
        · subst h1
          exact ⟨hk, a, by simp, rfl⟩
        · obtain ⟨hx, y, hy, hxy⟩ := pruneSeq_dropLast_mem f keep (b :: rest) x h2
          refine ⟨hx, y, ?_, hxy⟩
          rw [List.dropLast_cons_of_ne_nil (by simp : (b :: rest : List α) ≠ [])]
          exact List.mem_cons_of_mem a hy
      · rw [if_neg hk] at h
        obtain ⟨hx, y, hy, hxy⟩ := pruneSeq_dropLast_mem f keep (b :: rest) x h
        refine ⟨hx, y, ?_, hxy⟩
        rw [List.dropLast_cons_of_ne_nil (by simp : (b :: rest : List α) ≠ [])]
        exact List.mem_cons_of_mem a hy

theorem mapInit_getLast? (f : α → α) :
    ∀ (l : List α), (mapInit f l).getLast? = l.getLast?
  | [] => rfl
  | [a] => rfl
  | a :: b :: rest => by
      have ih := mapInit_getLast? f (b :: rest)
      obtain ⟨z, hz⟩ : ∃ z, (b :: rest).getLast? = some z := ⟨_, List.getLast?_cons⟩
      simp only [mapInit]
      rw [List.getLast?_cons (a := f a), ih, hz, List.getLast?_cons (a := a), hz]
      rfl

theorem mapInit_dropLast (f : α → α) :
    ∀ (l : List α), (mapInit f l).dropLast = l.dropLast.map f
  | [] => rfl
  | [a] => rfl
  | a :: b :: rest => by
      have ih := mapInit_dropLast f (b :: rest)
      have hne : mapInit f (b :: rest) ≠ [] := by cases rest <;> simp [mapInit]
      simp only [mapInit]
      rw [List.dropLast_cons_of_ne_nil hne, ih,
        List.dropLast_cons_of_ne_nil (by simp : (b :: rest : List α) ≠ [])]
      simp

theorem generate_ids_ne_nil (l : List Section) (h : l ≠ []) :
    Article.generate_ids l ≠ [] := by
  cases l with
  | nil => exact absurd rfl h
  | cons a rest => simp [Article.generate_ids]

theorem generate_ids_getLast? (l : List Section) :
    (Article.generate_ids l).getLast? = l.getLast? := by
  cases l with
  | nil => rfl
  | cons a rest =>
    simp only [Article.generate_ids]
    rw [List.getLast?_cons (a := a), List.getLast?_cons (a := a), mapInit_getLast?]

theorem prunePass_getLast? (l : List Section) (h : l ≠ []) :
    (prunePass l).getLast? = l.getLast? := by
  cases l with
  | nil => exact absurd rfl h
  | cons a rest =>
    cases hr : rest with
    | nil => simp [prunePass, pruneSeq]
    | cons b rest2 =>
      obtain ⟨z, hz⟩ : ∃ z, (b :: rest2).getLast? = some z := ⟨_, List.getLast?_cons⟩
      simp only [prunePass]
      rw [List.getLast?_cons (a := a), pruneSeq_getLast? _ _ _ (by simp), hz,
        List.getLast?_cons (a := a), hz]

theorem ciFinish_getLast_dummy (buf : List Char) (secs : List Section)
    (st : ArticleState) :
    ((ciFinish buf secs st).sections.getLast?.map Section.dummy) = some true := by
  simp only [ciFinish]
  rw [prunePass_getLast? _ (generate_ids_ne_nil _ (by simp)),
    generate_ids_getLast?, List.getLast?_concat]
  rfl

theorem ciLoop_lastSec_dummy (buf : List Char) :
    ∀ (rest : List Section) (cur : Section) (t : Option (List Char)),
      (ciLoop buf cur rest t).lastSec.dummy = ((rest.getLast?).getD cur).dummy
  | [], cur, t => by simp [ciLoop]
  | ns :: rest2, cur, t => by
      simp only [ciLoop]
      rw [List.getLast?_cons (a := ns), Option.getD_some]
      split
      · split
        · rw [ciLoop_lastSec_dummy buf rest2 _ _]
          cases hr : rest2.getLast? with
          | none => simp
          | some z => simp [hr]
        · rw [ciLoop_lastSec_dummy buf rest2 ns _]
      · rw [ciLoop_lastSec_dummy buf rest2 ns t]

theorem ciLoop_lastSec_startOff (buf : List Char) :
    ∀ (rest : List Section) (cur : Section) (t : Option (List Char)),
      (ciLoop buf cur rest t).lastSec.startOff = ((rest.getLast?).getD cur).startOff
  | [], cur, t => by simp [ciLoop]
  | ns :: rest2, cur, t => by
      simp only [ciLoop]
      rw [List.getLast?_cons (a := ns), Option.getD_some]
      split
      · split
        · rw [ciLoop_lastSec_startOff buf rest2 _ _]
          cases hr : rest2.getLast? with
          | none => simp
          | some z => simp [hr]
        · rw [ciLoop_lastSec_startOff buf rest2 ns _]
      · rw [ciLoop_lastSec_startOff buf rest2 ns t]

theorem Section.prunePars_dummy (s : Section) :
    (Section.prunePars s).dummy = s.dummy := rfl

theorem Section.generateIds_dummy (s : Section) :
    (Section.generateIds s).dummy = s.dummy := rfl

theorem Section.checkIntegrity_mem_dummy (buf : List Char) (s : Section)
    (n : Nat) : ∀ x ∈ Section.checkIntegrity buf s n, x.dummy = s.dummy := by
  intro x hx
  simp only [Section.checkIntegrity, List.mem_singleton] at hx
  subst hx
  rfl

theorem ciLoop_acc_nondummy (buf : List Char) :
    ∀ (rest : List Section) (cur : Section) (t : Option (List Char)),
      (∀ x ∈ (cur :: rest).dropLast, x.dummy = false) →
      ∀ s ∈ (ciLoop buf cur rest t).acc, s.dummy = false
  | [], cur, t, _ => by simp [ciLoop]
  | ns :: rest2, cur, t, hnd => by
      have hcur : cur.dummy = false := by
        apply hnd
        rw [List.dropLast_cons_of_ne_nil (by simp : (ns :: rest2 : List Section) ≠ [])]
        simp
      have htail : ∀ x ∈ (ns :: rest2).dropLast, x.dummy = false := by
        intro x hx
        apply hnd
        rw [List.dropLast_cons_of_ne_nil (by simp : (ns :: rest2 : List Section) ≠ [])]
        exact List.mem_cons_of_mem cur hx
      intro s hs
      simp only [ciLoop] at hs
      split at hs
      · split at hs
        · -- merge branch: the accumulated sections come from the recursive call
          refine ciLoop_acc_nondummy buf rest2 _ _ ?_ s hs
          intro x hx
          cases rest2 with
          | nil => simp at hx
          | cons c rest3 =>
            rw [List.dropLast_cons_of_ne_nil (by simp : (c :: rest3 : List Section) ≠ [])] at hx
            rcases List.mem_cons.mp hx with h1 | h2
            · subst h1
              have : ns.dummy = false := htail ns (by
                cases rest3 <;> simp_all [List.dropLast_cons_of_ne_nil])
              exact this
            · apply htail
              rw [List.dropLast_cons_of_ne_nil (by simp : (c :: rest3 : List Section) ≠ [])]
              exact List.mem_cons_of_mem ns h2
        · -- checkIntegrity branch
          simp only [CiRes.acc] at hs
          rcases List.mem_append.mp hs with h1 | h2
          · rw [Section.checkIntegrity_mem_dummy buf cur _ s h1]
            exact hcur
          · exact ciLoop_acc_nondummy buf rest2 ns _ htail s h2
      · exact ciLoop_acc_nondummy buf rest2 ns t htail s hs

theorem paraLoop_id (buf : List Char) :
    ∀ (rest : List Paragraph) (cur : Paragraph) (n : Nat),
      parChainWF buf cur rest n = true → paraLoop buf cur rest n = cur :: rest
  | [], cur, n, h => by
      simp only [parChainWF, decide_eq_true_eq] at h
      simp only [paraLoop]
      rw [← h]
  | np :: rest2, cur, n, h => by
      simp only [parChainWF, Bool.and_eq_true, decide_eq_true_eq] at h
      obtain ⟨⟨⟨h1, h2⟩, h3⟩, h4⟩ := h
      simp only [paraLoop, if_pos h1]
      rw [if_neg (by simp [h3])]
      have hcur : { cur with endOff := np.startOff } = cur := by
        rw [← h2]
      rw [hcur, paraLoop_id buf rest2 np n h4]

theorem sectionCI_id (buf : List Char) (s : Section) (n : Nat)
    (q : Paragraph) (qs : List Paragraph) (hp : s.paragraphs = q :: qs)
    (hw : parChainWF buf q qs n = true) :
    Section.checkIntegrity buf s n
      = [{ s with startOff := q.startOff, endOff := n }] := by
  simp only [Section.checkIntegrity, hp, paraLoop_id buf qs q n hw]
  have : ({ s with paragraphs := q :: qs, startOff := q.startOff, endOff := n } : Section)
      = { s with startOff := q.startOff, endOff := n } := by
    rw [← hp]
  simp [this]

theorem ciFinish_middle_nondummy (buf : List Char) (secs : List Section)
    (st : ArticleState) (hacc : ∀ x ∈ secs, x.dummy = false) :
    ∀ s ∈ ((ciFinish buf secs st).sections.drop 1).dropLast, s.dummy = false := by
  intro s hs
  cases secs with
  | nil =>
    simp [ciFinish, Article.generate_ids, prunePass, pruneSeq, mapInit] at hs
  | cons a rest =>
    simp only [ciFinish, List.cons_append, Article.generate_ids, prunePass,
      List.drop_one, List.tail_cons] at hs
    obtain ⟨hkeep, y, hy, hxy⟩ := pruneSeq_dropLast_mem _ _ _ s hs
    rw [mapInit_dropLast, List.dropLast_concat] at hy
    obtain ⟨z, hz, hzy⟩ := List.mem_map.mp hy
    subst hxy
    subst hzy
    rw [Section.prunePars_dummy, Section.generateIds_dummy]
    exact hacc z (List.mem_cons_of_mem a hz)

/-! ## Claim theorems -/

/-- C1: the round-trip `extract(construct(snapshot)) == snapshot` fails:
for the well-formed two-section snapshot `exArt` (no two adjacent empty
containers, canonical ids), `check_integrity` removes the zero-width start
dummy (its start equals the first real section's start, so the
`compare == -1` test of line 143 fails and the else branch deletes it), and
`get_data`'s subsequent `self.__sections[1 : len - 1]` slice then drops the
first real section: extraction returns the snapshot without its first
section instead of the snapshot itself. -/
theorem c1_roundtrip_code_bug :
    Article.get_data (Article.construct exArt) = some { exArt with sections_data := [exB] } ∧
    Article.get_data (Article.construct exArt) ≠ some exArt := by
  constructor
  · rfl
  · decide

/-- C3 (counterexample): after `check_integrity` on the state `ex3`, the
degenerate Sentence with range `[3, 3)` is still present — the pruning
loops of lines 196-217 never examine the final Sentence of a Paragraph
(`while k < len(...) - 1`), the final Paragraph of a Section, nor the
Section at index 0 of the rebuilt list — so the claimed "no degenerate
Sentence / no empty Paragraph" invariant does not hold. -/
theorem c3_counterexample :
    noDegenerateInvariant (Article.check_integrity ex3) = false := by decide

/-- C3 (amended): the pruning pass removes every *examined* node: among the
sections strictly between the first and last entries of the pruned list,
every Paragraph except the Section's last has at least one Sentence, and
every Sentence except the Paragraph's last is non-degenerate; the first and
last Sections, each Section's final Paragraph and each Paragraph's final
Sentence are exempt. -/
theorem c3_amended_pruning :
    ∀ (l : List Section) (s : Section) (p : Paragraph),
      s ∈ ((prunePass l).drop 1).dropLast →
      s.paragraphs ≠ [] ∧
        (p ∈ s.paragraphs.dropLast →
          p.sentences ≠ [] ∧ ∀ t ∈ p.sentences.dropLast, t.startOff < t.endOff) := by
  intro l s p hs
  cases l with
  | nil => simp [prunePass] at hs
  | cons a rest =>
    simp only [prunePass, List.drop_one, List.tail_cons] at hs
    obtain ⟨hkeep, y, _, hxy⟩ := pruneSeq_dropLast_mem _ _ _ s hs
    subst hxy
    constructor
    · simpa [Section.prunePars] using hkeep
    · intro hp
      simp only [Section.prunePars] at hp
      obtain ⟨hkeepP, q, _, hpq⟩ := pruneSeq_dropLast_mem _ _ _ p hp
      subst hpq
      constructor
      · simpa [Paragraph.pruneSentences] using hkeepP
      · intro t ht
        simp only [Paragraph.pruneSentences] at ht
        obtain ⟨hkeepT, u, _, htu⟩ := pruneSeq_dropLast_mem _ _ _ t ht
        subst htu
        simpa using hkeepT

/-- C3 (amended, witness): instantiation of the pruning property at the
pruned `ex3` section list. -/
theorem c3_amended_witness :
    (Section.prunePars ex3Sec).paragraphs ≠ [] ∧
      (Paragraph.pruneSentences ex3Par1 ∈ (Section.prunePars ex3Sec).paragraphs.dropLast →
        (Paragraph.pruneSentences ex3Par1).sentences ≠ [] ∧
          ∀ t ∈ (Paragraph.pruneSentences ex3Par1).sentences.dropLast,
            t.startOff < t.endOff) :=
  c3_amended_pruning [dummySection 0, ex3Sec, dummySection 3]
    (Section.prunePars ex3Sec) (Paragraph.pruneSentences ex3Par1) (by decide)

/-- C4 (counterexample): at a Position at the document end the two
operations differ: `delete_section` refuses (the exact section is the final
list element), while `remove_section` deletes the terminal dummy Section —
so they are not equivalent on every state and Position. -/
theorem c4_counterexample :
    Article.delete_section (Article.construct exArt1) 3 = Article.construct exArt1 ∧
    Article.remove_section (Article.construct exArt1) 3
      ≠ Article.delete_section (Article.construct exArt1) 3 := by
  constructor
  · rfl
  · decide

/-- C4 (amended): whenever the Position does not resolve to the final
element of the section list, `delete_section` and `remove_section` perform
the identical deletion and leave the Article in the same state;
`delete_section` additionally guards the final (dummy) element, where it is
a no-op while `remove_section` still deletes. -/
theorem c4_amended (st : ArticleState) (loc : Nat)
    (h : Article.getExactSection st loc ≠ st.sections.length - 1) :
    Article.delete_section st loc = Article.remove_section st loc := by
  simp only [Article.delete_section, Article.remove_section, if_pos h]

/-- C4 (amended, witness): the two deletions agree at position 0 of the
one-section article, whose exact section (index 1) is not the final one. -/
theorem c4_amended_witness :
    Article.delete_section (Article.construct exArt1) 0
      = Article.remove_section (Article.construct exArt1) 0 :=
  c4_amended (Article.construct exArt1) 0 (by decide)

/-- C7 (counterexample): the dummy-sentinel invariant is not preserved:
after `check_integrity` on a freshly constructed one-section article the
first list element is a real (non-dummy) Section — the zero-width start
dummy was removed by the loop's else branch — and `remove_section` at the
document end deletes the terminal dummy Section outright. -/
theorem c7_counterexample :
    ((Article.check_integrity (Article.construct exArt1)).sections.head?.map Section.dummy)
        = some false ∧
    ((Article.construct exArt1).sections.getLast?.map Section.dummy) = some true ∧
    ((Article.remove_section (Article.construct exArt1) 3).sections.getLast?.map Section.dummy)
        = some false := by
  refine ⟨by decide, by decide, by decide⟩

/-- C9: `insert` called with an empty objects list returns immediately
(lines 234-235): the state — hierarchy and text store — is unchanged, and
no error is raised. -/
theorem c9_insert_empty_noop (st : ArticleState) (loc : Nat) :
    Article.insert st [] loc = st := by
  simp [Article.insert]

/-- C10: `get_selection` normalizes the stored selection bounds before
extracting: when the first bound lies after the second it swaps them, so
`get_range` is always invoked with the smaller bound first. -/
theorem c10_selection_normalized (st : ArticleState) (b0 b1 : Nat) :
    Article.get_selection st (b0, b1) = Article.get_range st (min b0 b1) (max b0 b1) := by
  simp only [Article.get_selection]
  by_cases h : b0 > b1
  · rw [if_pos h, Nat.min_eq_right h.le, Nat.max_eq_left h.le]
  · rw [if_neg h]
    have h2 : b0 ≤ b1 := Nat.le_of_not_lt h
    rw [Nat.min_eq_left h2, Nat.max_eq_right h2]

/-- C8: `__get_best_section` compares the distance from the Position to the
containing Section's start with the distance to its end and picks the
nearer gap; on an exact tie (and whenever the left distance is not
strictly greater) it stays at the containing Section's own index, the left
gap. -/
theorem c8_best_gap (st : ArticleState) (loc : Nat) (s : Section)
    (hs : st.sections.get? (Article.getExactSection st loc) = some s) :
    ((loc : Int) - (s.startOff : Int) > (s.endOff : Int) - (loc : Int) →
      Article.get_best_section_index st loc = Article.getExactSection st loc + 1) ∧
    ((loc : Int) - (s.startOff : Int) ≤ (s.endOff : Int) - (loc : Int) →
      Article.get_best_section_index st loc = Article.getExactSection st loc) := by
  have hlt : Article.getExactSection st loc < st.sections.length :=
    (List.get?_eq_some.mp hs).1
  constructor
  · intro h
    simp only [Article.get_best_section_index, hs]
    rw [if_pos ⟨hlt, h⟩]
  · intro h
    simp only [Article.get_best_section_index, hs]
    rw [if_neg (fun hc => absurd hc.2 (not_lt.mpr h))]

/-- C8 (witness): at position 1 of the state `c5st` the containing section
is `c5Sec` (range `[0, 3)`): the left distance 1 is not greater than the
right distance 2, so the best gap is the containing index itself. -/
theorem c8_best_gap_witness :
    ((1 : Int) - (c5Sec.startOff : Int) > (c5Sec.endOff : Int) - (1 : Int) →
      Article.get_best_section_index c5st 1 = Article.getExactSection c5st 1 + 1) ∧
    ((1 : Int) - (c5Sec.startOff : Int) ≤ (c5Sec.endOff : Int) - (1 : Int) →
      Article.get_best_section_index c5st 1 = Article.getExactSection c5st 1) :=
  c8_best_gap c5st 1 c5Sec (by decide)

theorem getDataRange_empty_no_sentence (buf : List Char) (s : Section)
    (a b : Nat) (h : Section.getDataRange buf s a b = [])
    (p : Paragraph) (hp : p ∈ s.paragraphs) (t : Sentence) (ht : t ∈ p.sentences)
    (h1 : a ≤ t.startOff) (h2 : t.endOff ≤ b) (h3 : t.startOff < t.endOff) :
    False := by
  simp only [Section.getDataRange, List.filterMap_eq_nil_iff] at h
  have hcase := h p hp
  revert hcase
  split
  · next hempty =>
    intro _
    have ht2 : t ∈ p.sentences.filter
        (fun t => decide (a ≤ t.startOff) && decide (t.endOff ≤ b) && decide (t.startOff < t.endOff)) :=
      List.mem_filter.mpr ⟨ht, by simp [h1, h2, h3]⟩
    rw [List.isEmpty_iff] at hempty
    rw [hempty] at ht2
    simp at ht2
  · intro hco
    exact absurd hco (by simp)

/-- C5: when the split test fails — the data on either side of the Position
within the containing Section is empty — `__split_section` leaves the
Article unchanged: the Paragraph split is abandoned at the same boundary
(its own side would also be empty) and the Section replacement is never
performed. -/
theorem c5_failed_split (st : ArticleState) (loc : Nat) (s : Section)
    (hs : st.sections.get? (Article.getExactSection st loc) = some s)
    (hwf : ∀ p ∈ s.paragraphs, ∀ t ∈ p.sentences,
      s.startOff ≤ t.startOff ∧ t.endOff ≤ s.endOff)
    (hfail : Section.getDataRange st.buf s s.startOff loc = []
      ∨ Section.getDataRange st.buf s loc s.endOff = []) :
    Article.split_section st loc = st := by
  have hsplit : Section.splitParagraph s loc = s := by
    simp only [Section.splitParagraph]
    split
    · rfl
    · next p hpi =>
      have hpmem : p ∈ s.paragraphs := List.get?_mem hpi
      have hempty : p.sentences.filter
            (fun t => decide (p.startOff ≤ t.startOff) && decide (t.endOff ≤ loc) && decide (t.startOff < t.endOff)) = []
          ∨ p.sentences.filter
            (fun t => decide (loc ≤ t.startOff) && decide (t.endOff ≤ p.endOff) && decide (t.startOff < t.endOff)) = [] := by
        rcases hfail with hf | hf
        · left
          rw [List.filter_eq_nil_iff]
          intro t ht hcond
          simp only [Bool.and_eq_true, decide_eq_true_eq] at hcond
          obtain ⟨⟨_, hc2⟩, hc3⟩ := hcond
          exact getDataRange_empty_no_sentence st.buf s s.startOff loc hf p hpmem t ht
            (hwf p hpmem t ht).1 hc2 hc3
        · right
          rw [List.filter_eq_nil_iff]
          intro t ht hcond
          simp only [Bool.and_eq_true, decide_eq_true_eq] at hcond
          obtain ⟨⟨hc1, _⟩, hc3⟩ := hcond
          exact getDataRange_empty_no_sentence st.buf s loc s.endOff hf p hpmem t ht
            hc1 (hwf p hpmem t ht).2 hc3
      rw [if_pos hempty]
  simp only [Article.split_section, hs, hsplit, list_set_get_same _ _ _ hs]
  rw [if_neg ?_]
  rcases hfail with hf | hf
  · exact fun hc => hc.1 hf
  · exact fun hc => hc.2 hf

/-- C5 (witness): at position 0 (the section start) of the well-formed
state `c5st` the "before" data is empty, and the split leaves the state
unchanged. -/
theorem c5_failed_split_witness : Article.split_section c5st 0 = c5st :=
  c5_failed_split c5st 0 c5Sec (by decide) (by decide) (Or.inl (by decide))

theorem ciLoop_nil (buf : List Char) (cur : Section) (t : Option (List Char)) :
    ciLoop buf cur [] t = ⟨[], [], cur, t⟩ := rfl

theorem ciLoop_cons_drop (buf : List Char) (cur ns : Section)
    (rest : List Section) (t : Option (List Char))
    (h : ¬ cur.startOff < ns.startOff) :
    ciLoop buf cur (ns :: rest) t = ciLoop buf ns rest t := by
  simp only [ciLoop]
  rw [if_neg h]

theorem ciLoop_cons_merge (buf : List Char) (cur ns : Section)
    (rest : List Section) (t : Option (List Char))
    (hlt : cur.startOff < ns.startOff)
    (hcond : (sliceBuf buf cur.startOff ns.startOff).length > 2 ∧
      (sliceBuf buf cur.startOff ns.startOff).get?
        ((sliceBuf buf cur.startOff ns.startOff).length - 2) ≠ some '\n') :
    ciLoop buf cur (ns :: rest) t =
      ⟨(ciLoop buf { ns with paragraphs := cur.paragraphs ++ ns.paragraphs } rest
          (some (sliceBuf buf cur.startOff ns.startOff))).acc,
       cur :: (ciLoop buf { ns with paragraphs := cur.paragraphs ++ ns.paragraphs } rest
          (some (sliceBuf buf cur.startOff ns.startOff))).keptInit,
       (ciLoop buf { ns with paragraphs := cur.paragraphs ++ ns.paragraphs } rest
          (some (sliceBuf buf cur.startOff ns.startOff))).lastSec,
       (ciLoop buf { ns with paragraphs := cur.paragraphs ++ ns.paragraphs } rest
          (some (sliceBuf buf cur.startOff ns.startOff))).textv⟩ := by
  simp only [ciLoop]
  rw [if_pos hlt, if_pos hcond]

theorem ciLoop_cons_keep (buf : List Char) (cur ns : Section)
    (rest : List Section) (t : Option (List Char))
    (hlt : cur.startOff < ns.startOff)
    (hcond : ¬ ((sliceBuf buf cur.startOff ns.startOff).length > 2 ∧
      (sliceBuf buf cur.startOff ns.startOff).get?
        ((sliceBuf buf cur.startOff ns.startOff).length - 2) ≠ some '\n')) :
    ciLoop buf cur (ns :: rest) t =
      ⟨Section.checkIntegrity buf cur ns.startOff
          ++ (ciLoop buf ns rest (some (sliceBuf buf cur.startOff ns.startOff))).acc,
       cur :: (ciLoop buf ns rest (some (sliceBuf buf cur.startOff ns.startOff))).keptInit,
       (ciLoop buf ns rest (some (sliceBuf buf cur.startOff ns.startOff))).lastSec,
       (ciLoop buf ns rest (some (sliceBuf buf cur.startOff ns.startOff))).textv⟩ := by
  simp only [ciLoop]
  rw [if_pos hlt, if_neg hcond]

/-- C2: when the text between a Section's start and the next Section's
start no longer ends with the structural separator (`text[-2] != "\n"`),
reconciliation merges the two: after the pass exactly one Section stands in
their place and its Paragraph list is the first Section's Paragraphs
followed by the next Section's Paragraphs, in order, the boundary dropped
(here for an article `[startDummy, s1, s2, endDummy]` whose remaining
structure is well-formed). -/
theorem c2_merge (st : ArticleState) (d0 s1 s2 de : Section)
    (q : Paragraph) (qs : List Paragraph)
    (hsec : st.sections = [d0, s1, s2, de])
    (h0 : ¬ d0.startOff < s1.startOff)
    (h1 : s1.startOff < s2.startOff)
    (hm : (sliceBuf st.buf s1.startOff s2.startOff).length > 2 ∧
      (sliceBuf st.buf s1.startOff s2.startOff).get?
        ((sliceBuf st.buf s1.startOff s2.startOff).length - 2) ≠ some '\n')
    (h2 : s2.startOff < de.startOff)
    (hok : ¬ ((sliceBuf st.buf s2.startOff de.startOff).length > 2 ∧
      (sliceBuf st.buf s2.startOff de.startOff).get?
        ((sliceBuf st.buf s2.startOff de.startOff).length - 2) ≠ some '\n'))
    (hend : ¬ de.startOff < st.buf.length)
    (hp : s1.paragraphs ++ s2.paragraphs = q :: qs)
    (hw : parChainWF st.buf q qs de.startOff = true) :
    (Article.check_integrity st).sections =
      [{ s2 with paragraphs := s1.paragraphs ++ s2.paragraphs,
                 startOff := q.startOff, endOff := de.startOff },
       dummySection st.buf.length] ∧
    (Article.check_integrity st).buf = st.buf := by
  simp only [Article.check_integrity, hsec]
  rw [ciLoop_cons_drop st.buf d0 s1 [s2, de] none h0]
  rw [ciLoop_cons_merge st.buf s1 s2 [de] none h1 hm]
  rw [ciLoop_cons_keep st.buf { s2 with paragraphs := s1.paragraphs ++ s2.paragraphs }
    de [] (some (sliceBuf st.buf s1.startOff s2.startOff)) h2 hok]
  rw [ciLoop_nil]
  simp only [List.append_nil]
  rw [if_neg hend]
  rw [sectionCI_id st.buf _ de.startOff q qs hp hw]
  simp [ciFinish, Article.generate_ids, mapInit, prunePass, pruneSeq]

/-- C2 (witness): the merge on the concrete state `c2st` (buffer
`"ab\nc\n\n"` with the separator after `"ab"` deleted): reconciliation
yields one section holding `c2P1, c2P2, c2Ps` followed by the fresh end
dummy. -/
theorem c2_merge_witness :
    (Article.check_integrity c2st).sections =
      [{ c2s2 with paragraphs := c2s1.paragraphs ++ c2s2.paragraphs,
                   startOff := c2P1.startOff, endOff := (dummySection 6).startOff },
       dummySection c2st.buf.length] ∧
    (Article.check_integrity c2st).buf = c2st.buf :=
  c2_merge c2st (dummySection 0) c2s1 c2s2 (dummySection 6) c2P1 [c2P2, c2Ps]
    rfl (by decide) (by decide) (by decide) (by decide) (by decide) (by decide)
    (by decide) (by decide)

/-- C7 (amended): after construction the first and last elements of the
section list are the two dummy Sections, and every `check_integrity` leaves
a dummy Section as the last element (on the normal path a freshly created
end dummy, on the internally-swallowed fault paths the original last
element, which the loop never deletes); but `check_integrity` removes the
zero-width start dummy, so the first element is in general no longer a
dummy afterwards, and `delete_section` / `remove_section` can delete a
dummy Section outright (see the counterexample). -/
theorem c7_amended :
    (∀ d : ArticleData,
      ((Article.construct d).sections.head?.map Section.dummy) = some true ∧
      ((Article.construct d).sections.getLast?.map Section.dummy) = some true) ∧
    (∀ st : ArticleState,
      (st.sections.getLast?.map Section.dummy) = some true →
      ((Article.check_integrity st).sections.getLast?.map Section.dummy) = some true) := by
  constructor
  · intro d
    constructor
    · simp [Article.construct, dummySection]
    · simp only [Article.construct]
      rw [List.getLast?_concat]
      rfl
  · intro st h
    cases hsec : st.sections with
    | nil =>
      rw [hsec] at h
      simp at h
    | cons c rest =>
      rw [hsec, List.getLast?_cons] at h
      simp only [Option.map_some'] at h
      have hkept : ∀ (A : List Section),
          (((A ++ [(ciLoop st.buf c rest none).lastSec]) : List Section).getLast?.map Section.dummy)
            = some true := by
        intro A
        rw [List.getLast?_concat]
        simp only [Option.map_some']
        rw [ciLoop_lastSec_dummy]
        exact h
      simp only [Article.check_integrity, hsec]
      split
      · split
        · exact hkept _
        · split
          · split
            · exact hkept _
            · exact ciFinish_getLast_dummy _ _ _
          · exact ciFinish_getLast_dummy _ _ _
      · exact ciFinish_getLast_dummy _ _ _

/-- C7 (amended, witness): instantiation at the constructed one-section
article: its ends are dummies, and after reconciliation the final element
is still a dummy. -/
theorem c7_amended_witness :
    (((Article.construct exArt1).sections.head?.map Section.dummy) = some true ∧
      ((Article.construct exArt1).sections.getLast?.map Section.dummy) = some true) ∧
    ((Article.check_integrity (Article.construct exArt1)).sections.getLast?.map Section.dummy)
      = some true :=
  ⟨c7_amended.1 exArt1, c7_amended.2 (Article.construct exArt1) (by decide)⟩

/-- C6: `get_data` runs reconciliation first and then emits, in document
order, the data of exactly the sections strictly between the first and last
entries of the reconciled list (`self.__sections[1 : len - 1]`); under the
sentinel discipline — a start sentinel collapsed onto the first following
start, every middle section non-dummy, and the final sentinel pinned at the
buffer end — every section so walked is non-dummy, and the failure
indicator of the source (`return None` in the `except` arm) is an `Option`
rather than a propagated fault. -/
theorem c6_get_data (st : ArticleState) (d0 : Section) (rest : List Section)
    (hsec : st.sections = d0 :: rest)
    (hmid : ∀ x ∈ rest.dropLast, x.dummy = false)
    (hd0 : ¬ d0.startOff < ((rest.head?.map Section.startOff).getD d0.startOff))
    (hlast : st.buf.length ≤ ((st.sections.getLast?.map Section.startOff).getD st.buf.length)) :
    Article.get_data st = some (extractData (Article.check_integrity st)) ∧
    ∀ s ∈ ((Article.check_integrity st).sections.drop 1).dropLast, s.dummy = false := by
  refine ⟨rfl, ?_⟩
  cases rest with
  | nil =>
    rw [hsec] at hlast
    simp only [List.getLast?_singleton, Option.map_some', Option.getD_some] at hlast
    simp only [Article.check_integrity, hsec, ciLoop_nil]
    rw [if_neg (not_lt.mpr hlast)]
    intro s hs
    simp [ciFinish, Article.generate_ids, mapInit, prunePass, pruneSeq] at hs
  | cons s1 rest2 =>
    have hd0' : ¬ d0.startOff < s1.startOff := by simpa using hd0
    have hL : st.buf.length ≤ (ciLoop st.buf s1 rest2 none).lastSec.startOff := by
      rw [ciLoop_lastSec_startOff]
      rw [hsec, List.getLast?_cons, List.getLast?_cons] at hlast
      simpa using hlast
    simp only [Article.check_integrity, hsec]
    rw [ciLoop_cons_drop st.buf d0 s1 rest2 none hd0']
    rw [if_neg (not_lt.mpr hL)]
    exact ciFinish_middle_nondummy st.buf _ st
      (ciLoop_acc_nondummy st.buf rest2 s1 none hmid)

/-- C6 (witness): instantiation at the well-formed state `c5st`. -/
theorem c6_get_data_witness :
    Article.get_data c5st = some (extractData (Article.check_integrity c5st)) ∧
    ∀ s ∈ ((Article.check_integrity c5st).sections.drop 1).dropLast, s.dummy = false :=
  c6_get_data c5st (dummySection 0) [c5Sec, dummySection 3] rfl (by decide)
    (by decide) (by decide)
